import Mathlib

/-!
Verification of the forecast pipeline in `src/app.py` (a pandas + Prophet
script).  The pipeline is shallowly embedded: calendar dates replace pandas
timestamps, lists of cells replace pandas columns, and the semantics of the
library calls the script makes (`pd.to_datetime`, `pd.DateOffset`,
`DataFrame.sort_values`, `pd.api.types.is_numeric_dtype`,
`Prophet.fit` / `make_future_dataframe`) are reproduced from those libraries'
documented source behaviour at the points the script uses them.
-/

deriving instance DecidableEq for Except

namespace ForecastApp

/-- A calendar date, the model of the date part of a pandas `Timestamp`.
All timestamps manipulated by `app.py` are midnight timestamps (they come from
parsing date strings or from month-start `date_range`), so the date part is a
faithful model. -/
structure Date where
  year : Nat
  month : Nat
  day : Nat
  deriving DecidableEq, Repr

/-- Gregorian leap-year rule (as used by python `datetime`/pandas). -/
def isLeapYear (y : Nat) : Bool :=
  (y % 4 == 0 && y % 100 != 0) || (y % 400 == 0)

/-- Number of days of month `m` of year `y` (Gregorian calendar). -/
def daysInMonth (y m : Nat) : Nat :=
  if m = 2 then (if isLeapYear y then 29 else 28)
  else if m = 4 ∨ m = 6 ∨ m = 9 ∨ m = 11 then 30
  else 31

/-- Structural validity of a calendar date. -/
def Date.valid (d : Date) : Prop :=
  1 ≤ d.month ∧ d.month ≤ 12 ∧ 1 ≤ d.day ∧ d.day ≤ daysInMonth d.year d.month

instance (d : Date) : Decidable d.valid := by
  unfold Date.valid; infer_instance

/-- Chronological order on dates (lexicographic on year, month, day); the
model of `<=` on pandas timestamps. -/
def dateLe (a b : Date) : Prop :=
  a.year < b.year ∨ (a.year = b.year ∧
    (a.month < b.month ∨ (a.month = b.month ∧ a.day ≤ b.day)))

/-- Strict chronological order on dates; the model of `<` on pandas
timestamps. -/
def dateLt (a b : Date) : Prop :=
  a.year < b.year ∨ (a.year = b.year ∧
    (a.month < b.month ∨ (a.month = b.month ∧ a.day < b.day)))

instance (a b : Date) : Decidable (dateLe a b) := by
  unfold dateLe; infer_instance

instance (a b : Date) : Decidable (dateLt a b) := by
  unfold dateLt; infer_instance

theorem dateLe_refl (a : Date) : dateLe a a := by
  unfold dateLe; omega

theorem dateLe_trans {a b c : Date} (h1 : dateLe a b) (h2 : dateLe b c) :
    dateLe a c := by
  unfold dateLe at *; omega

theorem dateLe_total (a b : Date) : dateLe a b ∨ dateLe b a := by
  unfold dateLe; omega

/-- Model of adding `pd.DateOffset(months = n)` to a timestamp (for negative
`n`, of subtracting `pd.DateOffset(months = -n)`): pandas shifts the month by
`n` (carrying over the year) and clamps the day to the last valid day of the
resulting month (`dateutil.relativedelta` semantics: e.g.
`Timestamp("2024-01-31") + DateOffset(months=3)` is `2024-04-30`). -/
def dateOffsetMonths (d : Date) (n : Int) : Date :=
  let total : Int := (d.year : Int) * 12 + (d.month : Int) - 1 + n
  let y : Nat := (total.fdiv 12).toNat
  let m : Nat := (total.emod 12 + 1).toNat
  ⟨y, m, min d.day (daysInMonth y m)⟩

theorem daysInMonth_pos (y m : Nat) : 1 ≤ daysInMonth y m := by
  unfold daysInMonth
  split
  · split <;> omega
  · split <;> omega

/-- Calendar-month shifting clamps to a valid date: applied to a valid date it
yields a valid date (never an error). -/
theorem dateOffsetMonths_valid (d : Date) (n : Int) (h : d.valid) :
    (dateOffsetMonths d n).valid := by
  obtain ⟨h1, h2, h3, h4⟩ := h
  unfold dateOffsetMonths Date.valid
  refine ⟨?_, ?_, ?_, ?_⟩
  · simp only
    have he : 0 ≤ ((d.year : Int) * 12 + (d.month : Int) - 1 + n).emod 12 :=
      Int.emod_nonneg _ (by omega)
    omega
  · simp only
    have he : ((d.year : Int) * 12 + (d.month : Int) - 1 + n).emod 12 < 12 :=
      Int.emod_lt_of_pos _ (by omega)
    have he2 : 0 ≤ ((d.year : Int) * 12 + (d.month : Int) - 1 + n).emod 12 :=
      Int.emod_nonneg _ (by omega)
    omega
  · simp only
    have := daysInMonth_pos
      (((d.year : Int) * 12 + (d.month : Int) - 1 + n).fdiv 12).toNat
      ((((d.year : Int) * 12 + (d.month : Int) - 1 + n).emod 12) + 1).toNat
    omega
  · simp only; omega

/-- Model of `Series.max()` over the `ds` column (line 85 of `app.py`),
defined for a nonempty list of dates. -/
def dsMax (hd : Date) (tl : List Date) : Date :=
  tl.foldl (fun a b => if dateLe a b then b else a) hd

theorem dsMax_mem (hd : Date) (tl : List Date) :
    dsMax hd tl ∈ hd :: tl := by
  induction tl generalizing hd with
  | nil => simp [dsMax]
  | cons x xs ih =>
    unfold dsMax
    simp only [List.foldl_cons]
    rcases em (dateLe hd x) with h | h
    · simp only [if_pos h]
      have := ih x
      simp only [dsMax, List.mem_cons] at this
      rcases this with h' | h'
      · simp [h']
      · simp [List.mem_cons, h']
    · simp only [if_neg h]
      have := ih hd
      simp only [dsMax, List.mem_cons] at this
      rcases this with h' | h'
      · simp [h']
      · simp [List.mem_cons, h']

theorem dsMax_isMax (hd : Date) (tl : List Date) :
    ∀ t ∈ hd :: tl, dateLe t (dsMax hd tl) := by
  induction tl generalizing hd with
  | nil =>
    intro t ht
    simp only [List.mem_singleton] at ht
    subst ht; exact dateLe_refl t
  | cons x xs ih =>
    intro t ht
    unfold dsMax
    simp only [List.foldl_cons]
    rcases em (dateLe hd x) with h | h
    · simp only [if_pos h]
      have hx := ih x
      simp only [dsMax] at hx
      simp only [List.mem_cons] at ht
      rcases ht with rfl | rfl | hmem
      · exact dateLe_trans h (hx x (by simp))
      · exact hx t (by simp)
      · exact hx t (by simp [hmem])
    · simp only [if_neg h]
      have hx := ih hd
      simp only [dsMax] at hx
      simp only [List.mem_cons] at ht
      rcases ht with rfl | rfl | hmem
      · exact hx t (by simp)
      · rcases dateLe_total t hd with h' | h'
        · exact dateLe_trans h' (hx hd (by simp))
        · exact absurd h' h
      · exact hx t (by simp [hmem])

/-! ## Date strings

Model of `pd.to_datetime(column, dayfirst=True)` (line 45 of `app.py`) on the
slash-separated numeric date strings the application is built for
(`dd/mm/yyyy`), and of `Series.dt.strftime("%d/%m/%Y")` (line 91). -/

/-- Split a character list at every `'/'` (the separator of the `dd/mm/yyyy`
date strings handled by the script). -/
def splitSlash : List Char → List (List Char)
  | [] => [[]]
  | c :: cs =>
    if c = '/' then [] :: splitSlash cs
    else
      match splitSlash cs with
      | [] => [[c]]
      | t :: ts => (c :: t) :: ts

/-- Numeric value of a digit character. -/
def digitVal (c : Char) : Nat := c.toNat - 48

/-- Parse a nonempty all-digit character list as a natural number. -/
def parseNatDigits (cs : List Char) : Option Nat :=
  if cs ≠ [] ∧ cs.all Char.isDigit then
    some (cs.foldl (fun a c => 10 * a + digitVal c) 0)
  else none

/-- Earliest date representable as a midnight pandas `Timestamp`
(`Timestamp.min` is 1677-09-21 00:12:43, so the earliest midnight is
1677-09-22). -/
def minTimestampDate : Date := ⟨1677, 9, 22⟩

/-- Latest date representable as a midnight pandas `Timestamp`
(`Timestamp.max` is 2262-04-11 23:47:16). -/
def maxTimestampDate : Date := ⟨2262, 4, 11⟩

/-- The date fits in the pandas `Timestamp` range (out-of-range parses raise
`OutOfBoundsDatetime` inside `pd.to_datetime`). -/
def inTimestampBounds (d : Date) : Prop :=
  dateLe minTimestampDate d ∧ dateLe d maxTimestampDate

instance (d : Date) : Decidable (inTimestampBounds d) := by
  unfold inTimestampBounds; infer_instance

/-- Model of `pd.to_datetime(s, dayfirst=True)` on one string of the
application's date-string domain (three slash-separated decimal fields).
`dateutil` with `dayfirst=True` reads the first field as the day whenever the
result is a structurally valid date, and otherwise falls back to reading it as
the month (so `"04/13/2024"` still parses, as April 13); the structurally
chosen date is then range-checked by the pandas `Timestamp` conversion.
Anything else is unparseable and makes `pd.to_datetime` raise. -/
def parseDateDayFirst (s : String) : Option Date :=
  match splitSlash s.toList with
  | [a, b, c] =>
    match parseNatDigits a, parseNatDigits b, parseNatDigits c with
    | some x, some y, some z =>
      let dayFirst : Date := ⟨z, y, x⟩
      let monthFirst : Date := ⟨z, x, y⟩
      if dayFirst.valid then
        if inTimestampBounds dayFirst then some dayFirst else none
      else if monthFirst.valid then
        if inTimestampBounds monthFirst then some monthFirst else none
      else none
    | _, _, _ => none
  | _ => none

/-- Decimal digits of `n`, most significant first (empty for 0); `fuel`
bounds the recursion and any `fuel ≥ n` is enough. -/
def digitsBEAux : Nat → Nat → List Nat
  | 0, _ => []
  | fuel + 1, n =>
    if n = 0 then [] else digitsBEAux fuel (n / 10) ++ [n % 10]

/-- Decimal digits of `n`, most significant first (empty for 0). -/
def digitsBE (n : Nat) : List Nat :=
  digitsBEAux n n

/-- Decimal digit characters of `n`, most significant first, left-padded with
`'0'` to width `w`. -/
def padDigits (w n : Nat) : List Char :=
  let ds := (digitsBE n).map Nat.digitChar
  List.replicate (w - ds.length) '0' ++ ds

/-- Model of `Series.dt.strftime("%d/%m/%Y")` on one timestamp (line 91 of
`app.py`): zero-padded day/month/year. -/
def strftimeDMY (d : Date) : String :=
  String.mk (padDigits 2 d.day ++ '/' :: (padDigits 2 d.month ++ '/' :: padDigits 4 d.year))

/-! ## Tables and cells

Model of the DataFrame produced by `pd.read_csv` (line 28 of `app.py`) and of
the operations the script performs on it.  A cell is the scalar value that
`read_csv` produced for one CSV field; after line 45 the date column holds
timestamps. -/

/-- One scalar value of a loaded DataFrame.  `num` covers the integer and
floating-point scalars `read_csv` produces (including negative values; the
int/float distinction is irrelevant to every check the script performs, both
dtypes being numeric), `boolv` the `True`/`False` scalars, `null` a missing
field (NaN), `str` an uninterpreted text field, and `date` a timestamp
(present only after the `pd.to_datetime` conversion). -/
inductive Cell where
  | num (q : ℚ)
  | boolv (b : Bool)
  | null
  | str (s : String)
  | date (d : Date)
  deriving DecidableEq, Repr

/-- A loaded DataFrame: named columns in order, each a list of cells.
`read_csv` mangles duplicate CSV headers (`a`, `a.1`, ...), so column names
are distinct. -/
abbrev Table := List (String × List Cell)

/-- The dtype pandas infers for a column, collapsed to what
`pd.api.types.is_numeric_dtype` distinguishes. -/
inductive Dtype where
  | numeric
  | boolDtype
  | object
  deriving DecidableEq, Repr

/-- Is the cell an integer or floating-point number? -/
def Cell.isNum : Cell → Bool
  | .num _ => true
  | _ => false

/-- Is the cell a missing value (NaN)? -/
def Cell.isNull : Cell → Bool
  | .null => true
  | _ => false

/-- Is the cell a boolean scalar? -/
def Cell.isBool : Cell → Bool
  | .boolv _ => true
  | _ => false

/-- The dtype `pd.read_csv` infers for a column holding these scalars: all
numbers (ints or floats), or numbers mixed with missing values, or all
missing → a numeric dtype (`int64`/`float64`); all `True`/`False` with no
missing value → `bool`; a column with no rows, or any text value, or booleans
mixed with missing values → `object`. -/
def inferDtype (cells : List Cell) : Dtype :=
  if cells = [] then .object
  else if cells.all (fun c => c.isNum || c.isNull) then .numeric
  else if cells.all Cell.isBool then .boolDtype
  else .object

/-- Model of `pd.api.types.is_numeric_dtype` (line 51 of `app.py`): true for
the integer and float dtypes and also for `bool` (pandas implements the check
as `issubclass(tipo, (np.number, np.bool_))`), false for `object`. -/
def is_numeric_dtype : Dtype → Bool
  | .numeric => true
  | .boolDtype => true
  | .object => false

/-- The numeric check of line 51 of `app.py` applied to the cells of the
target column: `pd.api.types.is_numeric_dtype(df_prophet["y"])`. -/
def checkY (cells : List Cell) : Bool :=
  is_numeric_dtype (inferDtype cells)

/-- `pd.to_datetime(cell, dayfirst=True)` on one cell: a text cell is parsed
day-first, an already-converted timestamp passes through; numeric, boolean
and missing cells of a purported date column are not given a calendar
reading by this model (the script is built for `dd/mm/yyyy` text columns). -/
def cellToDate : Cell → Option Date
  | .str s => parseDateDayFirst s
  | .date d => some d
  | _ => none

/-- `pd.to_datetime` over the cells of a column, starting at row index `i`:
either every cell parses and the timestamps are returned in order, or the
call raises, identifying the first offending row and its value. -/
def toDatetimeFrom (i : Nat) : List Cell → Except (Nat × Cell) (List Cell)
  | [] => .ok []
  | c :: rest =>
    match cellToDate c with
    | none => .error (i, c)
    | some d =>
      match toDatetimeFrom (i + 1) rest with
      | .error e => .error e
      | .ok ds => .ok (Cell.date d :: ds)

/-- Line 45 of `app.py`: `df[date_col] = pd.to_datetime(df[date_col],
dayfirst=True)`.  The selected column's cells are replaced, in place in the
loaded table, by the parsed timestamps; a missing column name raises a
`KeyError`, an unparseable cell propagates `pd.to_datetime`'s error. -/
def convertDateCol (tbl : Table) (dateCol : String) : Except String Table :=
  match tbl.lookup dateCol with
  | none => .error ("KeyError: " ++ dateCol)
  | some cells =>
    match toDatetimeFrom 0 cells with
    | .error e => .error ("date parse error at row " ++ toString e.1)
    | .ok converted =>
      .ok (tbl.map (fun p => if p.1 = dateCol then (p.1, converted) else p))

/-! ## The prepared two-column frame (line 48 of `app.py`)

`df_prophet = df[[date_col, y_col]].rename(columns={date_col: "ds", y_col:
"y"}).sort_values("ds")`. -/

/-- A two-column DataFrame: the two column names and the rows, each row a
(date-column cell, target-column cell) pair. -/
structure Frame where
  name1 : String
  name2 : String
  rows : List (Cell × Cell)
  deriving DecidableEq, Repr

/-- What the rename dictionary `{date_col: "ds", y_col: "y"}` maps a column
name to.  The dictionary is a Python dict literal: when `date_col == y_col`
the second entry overwrites the first, so the shared name maps to `"y"` and
nothing maps to `"ds"`. -/
def renameTarget (dateCol yCol col : String) : String :=
  if col = yCol then "y" else if col = dateCol then "ds" else col

/-- `df[[date_col, y_col]].rename(columns={date_col: "ds", y_col: "y"})`:
project the two selected columns (a missing name raises a `KeyError`) and
rename them.  When both selections name the same column the projection
duplicates it and the rename maps both copies to `"y"`. -/
def projectFrame (tbl : Table) (dateCol yCol : String) : Except String Frame :=
  match tbl.lookup dateCol with
  | none => .error ("KeyError: " ++ dateCol)
  | some c1 =>
    match tbl.lookup yCol with
    | none => .error ("KeyError: " ++ yCol)
    | some c2 =>
      .ok ⟨renameTarget dateCol yCol dateCol, renameTarget dateCol yCol yCol,
        c1.zip c2⟩

/-- The timestamp held by a converted date cell (every `ds` cell the script
sorts on has been produced by `pd.to_datetime`; other cells do not occur
there and are given a dummy date). -/
def cellDate : Cell → Date
  | .date d => d
  | _ => ⟨0, 0, 0⟩

/-- Insert a row into a list of rows sorted ascending on the date of the
cell selected by `key`. -/
def insertRow (key : Cell × Cell → Cell) (r : Cell × Cell) :
    List (Cell × Cell) → List (Cell × Cell)
  | [] => [r]
  | x :: xs =>
    if dateLe (cellDate (key r)) (cellDate (key x)) then r :: x :: xs
    else x :: insertRow key r xs

/-- Sort rows ascending on the date of the cell selected by `key`.  This
models the ordering guarantee of `DataFrame.sort_values`; the relative order
of rows with equal timestamps is NOT part of the model's contract, since
`sort_values` defaults to `kind='quicksort'` (numpy introsort), whose tie
order is implementation-defined.  No theorem in this file depends on the tie
order of this function. -/
def sortRows (key : Cell × Cell → Cell) (rows : List (Cell × Cell)) :
    List (Cell × Cell) :=
  rows.foldr (insertRow key) []

/-- `.sort_values("ds")` on the projected frame: sorts the rows ascending by
the `ds` column; if no column is named `ds` (which happens when the rename
dictionary collapsed, i.e. `date_col == y_col`), pandas raises
`KeyError: 'ds'`. -/
def sort_values_ds (f : Frame) : Except String Frame :=
  if f.name1 = "ds" then .ok ⟨f.name1, f.name2, sortRows Prod.fst f.rows⟩
  else if f.name2 = "ds" then .ok ⟨f.name1, f.name2, sortRows Prod.snd f.rows⟩
  else .error "KeyError: ds"

/-! ## The Prophet model (lines 61-79 of `app.py`)

Models of the two Prophet library calls the script makes, reproduced from the
Prophet source (`forecaster.py`).  The numerical fitting itself (Stan) is out
of scope: the model records the deterministic guards and the timestamps, which
is all the claims are about. -/

/-- The values of `l` not yet in `seen`, keeping the order of first
occurrence. -/
def uniqueFirstAux (seen : List Date) : List Date → List Date
  | [] => []
  | x :: xs =>
    if x ∈ seen then uniqueFirstAux seen xs
    else x :: uniqueFirstAux (x :: seen) xs

/-- `Series.unique()`: the distinct values of a column, keeping the order of
first occurrence. -/
def uniqueFirst (l : List Date) : List Date :=
  uniqueFirstAux [] l

/-- Insert a date into an ascending list of dates. -/
def insertDate (d : Date) : List Date → List Date
  | [] => [d]
  | x :: xs => if dateLe d x then d :: x :: xs else x :: insertDate d xs

/-- `Series.sort_values()` on a column of distinct dates: ascending order.
(Applied by Prophet to the distinct timestamps, so tie behaviour is moot.) -/
def sortDates (l : List Date) : List Date :=
  l.foldr insertDate []

/-- `Prophet.fit(df_prophet)` (line 72): Prophet drops rows with a null `y`
(`history = df[df['y'].notnull()]`), raises
`ValueError("Dataframe has less than 2 non-NaN rows.")` when fewer than two
rows remain, and otherwise records
`history_dates = pd.Series(df['ds'].unique()).sort_values()` — the distinct
input timestamps (first occurrences) in ascending order.  A constant `y`
column is not an error: with linear growth Prophet special-cases a flat
history ("Nothing to fit") and succeeds. -/
def prophetFit (rows : List (Cell × Cell)) : Except String (List Date) :=
  if (rows.filter (fun r => !r.2.isNull)).length < 2 then
    .error "Dataframe has less than 2 non-NaN rows."
  else
    .ok (sortDates (uniqueFirst (rows.map (fun r => cellDate r.1))))

/-- First month start strictly after a month-start date. -/
def succMonthStart (d : Date) : Date :=
  if d.month ≥ 12 then ⟨d.year + 1, 1, 1⟩ else ⟨d.year, d.month + 1, 1⟩

/-- The month start on or after `d` (how `pd.date_range(..., freq='MS')`
anchors its first element). -/
def monthStartOnOrAfter (d : Date) : Date :=
  if d.day = 1 then ⟨d.year, d.month, 1⟩ else succMonthStart d

/-- `k` consecutive month starts beginning at month-start `d`. -/
def msSeq (d : Date) : Nat → List Date
  | 0 => []
  | k + 1 => d :: msSeq (succMonthStart d) k

/-- `pd.date_range(start, periods=k, freq='MS')`: `k` consecutive month
starts, beginning with the month start on or after `start`. -/
def date_range_MS (start : Date) (k : Nat) : List Date :=
  msSeq (monthStartOnOrAfter start) k

/-- `model.make_future_dataframe(periods=3, freq='MS')` (line 78): starting
from `last_date = history_dates.max()`, Prophet builds
`pd.date_range(start=last_date, periods=4, freq='MS')`, keeps the dates
strictly after `last_date`, truncates to 3, and prepends the stored
`history_dates`.  `model.predict(future)` (line 79) then emits exactly one
forecast row per row of this frame, so these are the forecast's timestamps. -/
def make_future_dataframe (history_dates : List Date) : List Date :=
  match history_dates with
  | [] => []
  | h :: t =>
    let last := dsMax h t
    let dates := ((date_range_MS last 4).filter (fun d => decide (dateLt last d))).take 3
    (h :: t) ++ dates

/-! ## Forecast window and export (lines 85-94 of `app.py`) -/

/-- One row of `model.predict`'s output restricted to the columns the script
uses: the timestamp, the point forecast and the uncertainty interval. -/
structure ForecastRecord where
  ds : Date
  yhat : ℚ
  yhat_lower : ℚ
  yhat_upper : ℚ
  deriving DecidableEq, Repr

/-- Line 86: `start_date = last_date - pd.DateOffset(months=5)`. -/
def start_date (last_date : Date) : Date := dateOffsetMonths last_date (-5)

/-- Line 87: `end_date = last_date + pd.DateOffset(months=3)`. -/
def end_date (last_date : Date) : Date := dateOffsetMonths last_date 3

/-- Line 90: `forecast[(forecast['ds'] >= start_date) & (forecast['ds'] <=
end_date)]` — the forecast rows whose timestamp lies in the closed window. -/
def forecast_filtered (forecast : List ForecastRecord) (last_date : Date) :
    List ForecastRecord :=
  forecast.filter (fun r =>
    decide (dateLe (start_date last_date) r.ds) &&
    decide (dateLe r.ds (end_date last_date)))

/-- One row of the export table `df_export` (line 94): the formatted date
string and the three numeric columns unchanged. -/
structure ExportRow where
  dateText : String
  yhat : ℚ
  yhat_lower : ℚ
  yhat_upper : ℚ
  deriving DecidableEq, Repr

/-- Lines 91 and 94: the export row built from one windowed forecast record —
`forecast_filtered['Date'] = forecast_filtered['ds'].dt.strftime('%d/%m/%Y')`
followed by the projection to `['Date', 'yhat', 'yhat_lower', 'yhat_upper']`. -/
def exportRow (r : ForecastRecord) : ExportRow :=
  ⟨strftimeDMY r.ds, r.yhat, r.yhat_lower, r.yhat_upper⟩

/-- The export table: one row per windowed forecast record, order preserved. -/
def df_export (recs : List ForecastRecord) : List ExportRow :=
  recs.map exportRow

/-! ## The end-to-end run (lines 42-148 of `app.py`)

The button handler: everything from the date conversion to the plots runs
inside one `try`, whose `except` shows
`st.error(f"An error occurred while processing the file: {ex}")`; a failed
numeric check shows its own `st.error` without raising.  The model records
the sequence of user-visible outputs of one run. -/

/-- One user-visible output of a run, in order of emission: the success
message of line 54, the `df_prophet` preview of line 56, the forecast table
of line 97, the download button of line 108, the plots of lines 118-129, the
non-numeric-column error of line 52, and the top-level exception handler's
error of line 148 (carrying the exception's message). -/
inductive Output where
  | successMsg
  | previewTable
  | forecastTable
  | downloadButton
  | plotsShown
  | errorNotNumeric
  | errorProcessing (msg : String)
  deriving DecidableEq, Repr

/-- The outputs of one button-press run of the script on the loaded table
`tbl` with the selected column names.  Stage by stage: line 45 date
conversion, line 48 projection/rename/sort, line 51 numeric check, lines
54-56 success message and preview, line 72 model fitting, lines 78-129
forecast, export, download and plots.  Any exception aborts the remaining
stages and appends the handler's error message; the hosting process itself
never terminates (the model is a total function into an output list).  Stan's
numerical fitting is out of scope: the fit stage fails exactly on Prophet's
deterministic too-few-rows guard. -/
def runPipeline (tbl : Table) (dateCol yCol : String) : List Output :=
  match convertDateCol tbl dateCol with
  | .error e => [.errorProcessing e]
  | .ok df =>
    match projectFrame df dateCol yCol with
    | .error e => [.errorProcessing e]
    | .ok f =>
      match sort_values_ds f with
      | .error e => [.errorProcessing e]
      | .ok df_prophet =>
        if checkY (df_prophet.rows.map (fun r => r.2)) then
          match prophetFit df_prophet.rows with
          | .error e => [.successMsg, .previewTable, .errorProcessing e]
          | .ok _history_dates =>
            [.successMsg, .previewTable, .forecastTable, .downloadButton,
              .plotsShown]
        else [.errorNotNumeric]

/-! ## Inversion lemmas for the date-conversion step -/

theorem toDatetimeFrom_ok_eq :
    ∀ (cells : List Cell) (i : Nat) (ds : List Cell),
      toDatetimeFrom i cells = .ok ds →
      ds = cells.map (fun c => Cell.date ((cellToDate c).getD ⟨0, 0, 0⟩))
  | [], _, ds, h => by
    simp only [toDatetimeFrom] at h
    cases h
    rfl
  | c :: rest, i, ds, h => by
    simp only [toDatetimeFrom] at h
    cases hc : cellToDate c with
    | none => rw [hc] at h; cases h
    | some d =>
      rw [hc] at h
      cases hr : toDatetimeFrom (i + 1) rest with
      | error e => rw [hr] at h; cases h
      | ok ds' =>
        rw [hr] at h
        cases h
        have := toDatetimeFrom_ok_eq rest (i + 1) ds' hr
        simp [this, hc]

theorem toDatetimeFrom_ok_of_parseable :
    ∀ (cells : List Cell) (i : Nat),
      (∀ c ∈ cells, (cellToDate c).isSome) →
      toDatetimeFrom i cells =
        .ok (cells.map (fun c => Cell.date ((cellToDate c).getD ⟨0, 0, 0⟩)))
  | [], _, _ => rfl
  | c :: rest, i, h => by
    have hc : (cellToDate c).isSome := h c (by simp)
    cases hc2 : cellToDate c with
    | none => rw [hc2] at hc; cases hc
    | some d =>
      have hrec := toDatetimeFrom_ok_of_parseable rest (i + 1)
        (fun c' hc' => h c' (by simp [hc']))
      simp [toDatetimeFrom, hc2, hrec]

theorem toDatetimeFrom_error_first :
    ∀ (pre : List Cell) (c : Cell) (post : List Cell) (i : Nat),
      (∀ c' ∈ pre, (cellToDate c').isSome) → cellToDate c = none →
      toDatetimeFrom i (pre ++ c :: post) = .error (i + pre.length, c)
  | [], c, post, i, _, hc => by simp [toDatetimeFrom, hc]
  | p :: pre, c, post, i, h, hc => by
    have hp : (cellToDate p).isSome := h p (by simp)
    cases hp2 : cellToDate p with
    | none => rw [hp2] at hp; cases hp
    | some d =>
      have hrec := toDatetimeFrom_error_first pre c post (i + 1)
        (fun c' hc' => h c' (by simp [hc'])) hc
      rw [show i + 1 + pre.length = i + (pre.length + 1) from by omega] at hrec
      simp [List.cons_append, toDatetimeFrom, hp2, hrec]

/-- Inversion of a successful line-45 conversion: the selected column existed,
all its cells parsed, and the result is the input table with that column's
cells replaced by the parsed timestamps. -/
theorem convertDateCol_ok (tbl : Table) (dC : String) (df : Table)
    (h : convertDateCol tbl dC = .ok df) :
    ∃ cells, tbl.lookup dC = some cells ∧
      toDatetimeFrom 0 cells =
        .ok (cells.map (fun c => Cell.date ((cellToDate c).getD ⟨0, 0, 0⟩))) ∧
      df = tbl.map (fun p =>
        if p.1 = dC then
          (p.1, cells.map (fun c => Cell.date ((cellToDate c).getD ⟨0, 0, 0⟩)))
        else p) := by
  cases hl : tbl.lookup dC with
  | none => simp [convertDateCol, hl] at h
  | some cells =>
    cases ht : toDatetimeFrom 0 cells with
    | error e => simp [convertDateCol, hl, ht] at h
    | ok conv =>
      simp only [convertDateCol, hl, ht, Except.ok.injEq] at h
      have hconv := toDatetimeFrom_ok_eq cells 0 conv ht
      subst hconv
      exact ⟨cells, rfl, ht, h.symm⟩

/-! ## Claim C3: day-first date parsing -/

/-- C3: the date column is parsed day-first — `"03/04/2024"` is April 3,
2024, not March 4; a column whose cells all parse converts to their
timestamps in order; and any unparseable cell makes the conversion fail with
an error identifying the first offending row and its value. -/
theorem date_parsing_dayfirst :
    (parseDateDayFirst "03/04/2024" = some ⟨2024, 4, 3⟩ ∧
      parseDateDayFirst "03/04/2024" ≠ some ⟨2024, 3, 4⟩) ∧
    (∀ (pre : List Cell) (c : Cell) (post : List Cell),
      (∀ c' ∈ pre, (cellToDate c').isSome) → cellToDate c = none →
      toDatetimeFrom 0 (pre ++ c :: post) = .error (pre.length, c)) ∧
    (∀ cells : List Cell, (∀ c ∈ cells, (cellToDate c).isSome) →
      toDatetimeFrom 0 cells =
        .ok (cells.map (fun c => Cell.date ((cellToDate c).getD ⟨0, 0, 0⟩)))) :=
  ⟨⟨by decide, by decide⟩,
    fun pre c post h1 h2 => by
      simpa using toDatetimeFrom_error_first pre c post 0 h1 h2,
    fun cells h => toDatetimeFrom_ok_of_parseable cells 0 h⟩

/-- Witness for C3: a column with an ISO-formatted (hence unparseable here)
second cell fails identifying row 1; a parseable one-cell column converts. -/
theorem date_parsing_dayfirst_witness :
    toDatetimeFrom 0 [Cell.str "01/01/2024", Cell.str "2024-04-03"] =
      .error (1, Cell.str "2024-04-03") ∧
    toDatetimeFrom 0 [Cell.str "03/04/2024"] =
      .ok ([Cell.str "03/04/2024"].map
        (fun c => Cell.date ((cellToDate c).getD ⟨0, 0, 0⟩))) :=
  ⟨date_parsing_dayfirst.2.1 [Cell.str "01/01/2024"] (Cell.str "2024-04-03")
      [] (by decide) (by decide),
    date_parsing_dayfirst.2.2 [Cell.str "03/04/2024"] (by decide)⟩

/-! ## Claim C1: the forecast window -/

/-- C1: for every canonical series (a nonempty list of timestamps) the window
is anchored at `lastObserved = max(ds)`; the windowed forecast holds exactly
the forecast records with `start_date <= ds <= end_date`, both ends
inclusive, where the bounds are `lastObserved` shifted by −5 and +3 calendar
months; and the calendar shift clamps month-end dates to valid dates rather
than failing. -/
theorem window_selector_spec (h0 : Date) (tl : List Date)
    (forecast : List ForecastRecord) (hval : (dsMax h0 tl).valid) :
    (dsMax h0 tl ∈ h0 :: tl ∧ ∀ t ∈ h0 :: tl, dateLe t (dsMax h0 tl)) ∧
    (start_date (dsMax h0 tl)).valid ∧ (end_date (dsMax h0 tl)).valid ∧
    ∀ r : ForecastRecord, r ∈ forecast_filtered forecast (dsMax h0 tl) ↔
      r ∈ forecast ∧ dateLe (start_date (dsMax h0 tl)) r.ds ∧
        dateLe r.ds (end_date (dsMax h0 tl)) := by
  refine ⟨⟨dsMax_mem h0 tl, dsMax_isMax h0 tl⟩,
    dateOffsetMonths_valid _ _ hval, dateOffsetMonths_valid _ _ hval,
    fun r => ?_⟩
  simp [forecast_filtered, List.mem_filter, and_assoc]

/-- Witness for C1, at the spec's month-end edge case `lastObserved =
2024-01-31`: the window is `[2023-08-31, 2024-04-30]` (both month shifts
clamped to valid dates) and an in-window record passes the filter. -/
theorem window_selector_spec_witness :
    start_date ⟨2024, 1, 31⟩ = ⟨2023, 8, 31⟩ ∧
    end_date ⟨2024, 1, 31⟩ = ⟨2024, 4, 30⟩ ∧
    ((⟨⟨2023, 8, 31⟩, 1, 0, 2⟩ : ForecastRecord) ∈
      forecast_filtered [⟨⟨2023, 8, 31⟩, 1, 0, 2⟩, ⟨⟨2024, 5, 1⟩, 3, 2, 4⟩]
        (dsMax ⟨2024, 1, 31⟩ []) ↔
      (⟨⟨2023, 8, 31⟩, 1, 0, 2⟩ : ForecastRecord) ∈
        [⟨⟨2023, 8, 31⟩, 1, 0, 2⟩, ⟨⟨2024, 5, 1⟩, 3, 2, 4⟩] ∧
      dateLe (start_date (dsMax ⟨2024, 1, 31⟩ [])) ⟨2023, 8, 31⟩ ∧
      dateLe ⟨2023, 8, 31⟩ (end_date (dsMax ⟨2024, 1, 31⟩ []))) :=
  ⟨by decide, by decide,
    (window_selector_spec ⟨2024, 1, 31⟩ []
      [⟨⟨2023, 8, 31⟩, 1, 0, 2⟩, ⟨⟨2024, 5, 1⟩, 3, 2, 4⟩]
      (by decide)).2.2.2 ⟨⟨2023, 8, 31⟩, 1, 0, 2⟩⟩

/-! ## Claim C4: the numeric check on the target column -/

/-- Counterexample to C4 as stated: the claim says a target column with
nulls mixed among numbers, or a boolean target column, is rejected; the
code's dtype-level check (`pd.api.types.is_numeric_dtype`) accepts both — a
numeric column with missing values has dtype `float64` and a `True`/`False`
CSV column has dtype `bool`, and both dtypes count as numeric. -/
theorem numeric_check_counterexample :
    checkY [Cell.num 1, Cell.null] = true ∧
    checkY [Cell.boolv true, Cell.boolv false] = true := by decide

/-- C4 amended: the check is dtype-based.  It rejects every column holding a
text entry (such columns load with dtype `object`); it accepts every column
of numeric entries, including floats and negatives; and it also accepts
numbers mixed with nulls and all-boolean columns, whose dtypes
(`float64`, `bool`) count as numeric. -/
theorem numeric_check_dtype_based (cells : List Cell) :
    ((∃ s, Cell.str s ∈ cells) → checkY cells = false) ∧
    (cells ≠ [] → (∀ c ∈ cells, c.isNum) → checkY cells = true) ∧
    (cells ≠ [] → (∀ c ∈ cells, c.isNum || c.isNull) → checkY cells = true) ∧
    (cells ≠ [] → (∀ c ∈ cells, c.isBool) → checkY cells = true) := by
  refine ⟨?_, ?_, ?_, ?_⟩
  · rintro ⟨s, hs⟩
    have h1 : cells.all (fun c => c.isNum || c.isNull) = false := by
      rw [List.all_eq_false]
      exact ⟨Cell.str s, hs, by simp [Cell.isNum, Cell.isNull]⟩
    have h2 : cells.all Cell.isBool = false := by
      rw [List.all_eq_false]
      exact ⟨Cell.str s, hs, by simp [Cell.isBool]⟩
    have h3 : cells ≠ [] := by rintro rfl; simp at hs
    simp [checkY, inferDtype, h1, h2, h3, is_numeric_dtype]
  · intro hne hnum
    have h1 : cells.all (fun c => c.isNum || c.isNull) = true := by
      rw [List.all_eq_true]
      intro c hc
      simp [hnum c hc]
    simp [checkY, inferDtype, h1, hne, is_numeric_dtype]
  · intro hne hnum
    have h1 : cells.all (fun c => c.isNum || c.isNull) = true := by
      rw [List.all_eq_true]
      exact hnum
    simp [checkY, inferDtype, h1, hne, is_numeric_dtype]
  · intro hne hb
    have h1 : cells.all Cell.isBool = true := List.all_eq_true.mpr hb
    by_cases h2 : cells.all (fun c => c.isNum || c.isNull) = true
    · simp [checkY, inferDtype, h2, hne, is_numeric_dtype]
    · simp [checkY, inferDtype, h1, h2, hne, is_numeric_dtype]

/-- Witness for C4 amended: a text column is rejected; a column of a float
and a negative number is accepted; a number-and-null column is accepted; a
boolean column is accepted. -/
theorem numeric_check_dtype_based_witness :
    checkY [Cell.str "abc", Cell.num 2] = false ∧
    checkY [Cell.num (7 / 2), Cell.num (-5)] = true ∧
    checkY [Cell.num 3, Cell.null] = true ∧
    checkY [Cell.boolv false] = true :=
  ⟨(numeric_check_dtype_based [Cell.str "abc", Cell.num 2]).1
      ⟨"abc", by decide⟩,
    (numeric_check_dtype_based [Cell.num (7 / 2), Cell.num (-5)]).2.1
      (by decide) (by decide),
    (numeric_check_dtype_based [Cell.num 3, Cell.null]).2.2.1
      (by decide) (by decide),
    (numeric_check_dtype_based [Cell.boolv false]).2.2.2
      (by decide) (by decide)⟩

/-! ## Lookup lemmas for the column-replacing write of line 45 -/

theorem lookup_replace_other (tbl : Table) (dC : String) (conv : List Cell)
    (n : String) (hn : n ≠ dC) :
    (tbl.map (fun p => if p.1 = dC then (p.1, conv) else p)).lookup n =
      tbl.lookup n := by
  induction tbl with
  | nil => rfl
  | cons p rest ih =>
    obtain ⟨k, v⟩ := p
    have hval : List.map (fun p => if p.1 = dC then (p.1, conv) else p)
        ((k, v) :: rest) =
        (k, if k = dC then conv else v) ::
          List.map (fun p => if p.1 = dC then (p.1, conv) else p) rest := by
      by_cases hk : k = dC <;> simp [hk]
    rw [hval]
    by_cases hnk : n = k
    · subst hnk
      have hk : ¬n = dC := hn
      simp [List.lookup, hk]
    · have hnk2 : (n == k) = false := by simp [beq_eq_false_iff_ne, hnk]
      simp [List.lookup, hnk2, ih]

theorem lookup_replace_self (tbl : Table) (dC : String) (conv : List Cell)
    (cells : List Cell) (h : tbl.lookup dC = some cells) :
    (tbl.map (fun p => if p.1 = dC then (p.1, conv) else p)).lookup dC =
      some conv := by
  induction tbl with
  | nil => cases h
  | cons p rest ih =>
    obtain ⟨k, v⟩ := p
    have hval : List.map (fun p => if p.1 = dC then (p.1, conv) else p)
        ((k, v) :: rest) =
        (k, if k = dC then conv else v) ::
          List.map (fun p => if p.1 = dC then (p.1, conv) else p) rest := by
      by_cases hk : k = dC <;> simp [hk]
    rw [hval]
    by_cases hk : dC = k
    · subst hk
      simp [List.lookup]
    · have hkd : (dC == k) = false := by simp [beq_eq_false_iff_ne, hk]
      simp only [List.lookup, hkd] at h
      simp [List.lookup, hkd, ih h]

/-! ## Claim C9: frame effect of the validation stage -/

/-- C9 amended: the date conversion of line 45 writes into the loaded table —
the selected date column is replaced by its parsed timestamps — while
everything else survives: column names and their order are preserved and
every non-selected column is unchanged. -/
theorem date_conversion_frame_effect (tbl : Table) (dC : String) (df : Table)
    (h : convertDateCol tbl dC = .ok df) :
    df.map Prod.fst = tbl.map Prod.fst ∧
    (∀ p ∈ tbl, p.1 ≠ dC → p ∈ df) ∧
    ∃ cells, tbl.lookup dC = some cells ∧
      df.lookup dC =
        some (cells.map (fun c => Cell.date ((cellToDate c).getD ⟨0, 0, 0⟩))) := by
  obtain ⟨cells, hl, ht, hdf⟩ := convertDateCol_ok tbl dC df h
  subst hdf
  refine ⟨?_, ?_, cells, hl, lookup_replace_self tbl dC _ cells hl⟩
  · rw [List.map_map]
    apply List.map_congr_left
    intro p hp
    by_cases hpc : p.1 = dC <;> simp [Function.comp, hpc]
  · intro p hp hne
    exact List.mem_map.mpr ⟨p, hp, by simp [hne]⟩

/-- Derived tables for the C9 witness. -/
def c9w_tbl : Table :=
  [("dt", [Cell.str "05/06/2024"]), ("v", [Cell.num 2])]

/-- `c9w_tbl` after the line-45 conversion. -/
def c9w_df : Table :=
  [("dt", [Cell.date ⟨2024, 6, 5⟩]), ("v", [Cell.num 2])]

/-- Witness for C9 amended: on a concrete two-column table the conversion
succeeds, names are preserved and the non-selected column is untouched. -/
theorem date_conversion_frame_effect_witness :
    c9w_df.map Prod.fst = c9w_tbl.map Prod.fst ∧
    ("v", [Cell.num 2]) ∈ c9w_df := by
  have h := date_conversion_frame_effect c9w_tbl "dt" c9w_df (by decide)
  exact ⟨h.1, h.2.1 ("v", [Cell.num 2]) (by decide) (by decide)⟩

/-! ## Digit-string lemmas for the export round-trip -/

theorem digitVal_digitChar (d : Nat) (h : d < 10) :
    digitVal (Nat.digitChar d) = d := by
  interval_cases d <;> rfl

theorem isDigit_digitChar (d : Nat) (h : d < 10) :
    (Nat.digitChar d).isDigit = true := by
  interval_cases d <;> decide

theorem digitsBEAux_eq :
    ∀ (fuel n : Nat), n ≤ fuel → digitsBEAux fuel n = (Nat.digits 10 n).reverse := by
  intro fuel
  induction fuel with
  | zero =>
    intro n hn
    have : n = 0 := by omega
    subst this
    simp [digitsBEAux, Nat.digits_zero]
  | succ f ih =>
    intro n hn
    by_cases h0 : n = 0
    · subst h0
      simp [digitsBEAux, Nat.digits_zero]
    · have hlt : n / 10 < n := Nat.div_lt_self (Nat.pos_of_ne_zero h0) (by norm_num)
      simp only [digitsBEAux, if_neg h0]
      rw [ih (n / 10) (by omega)]
      rw [Nat.digits_def' (by norm_num : 1 < 10) (Nat.pos_of_ne_zero h0)]
      simp

theorem digitsBE_eq (n : Nat) : digitsBE n = (Nat.digits 10 n).reverse :=
  digitsBEAux_eq n n le_rfl

theorem padDigits_all_digit (w n : Nat) :
    ∀ c ∈ padDigits w n, c.isDigit = true := by
  intro c hc
  unfold padDigits at hc
  rw [digitsBE_eq] at hc
  rcases List.mem_append.mp hc with h | h
  · rw [List.eq_of_mem_replicate h]
    decide
  · obtain ⟨d, hd, rfl⟩ := List.mem_map.mp h
    exact isDigit_digitChar d
      (Nat.digits_lt_base (by norm_num) (List.mem_reverse.mp hd))

theorem padDigits_no_slash (w n : Nat) : ∀ c ∈ padDigits w n, ¬c = '/' := by
  intro c hc he
  have := padDigits_all_digit w n c hc
  rw [he] at this
  exact absurd this (by decide)

theorem padDigits_ne_nil (w n : Nat) (hw : 1 ≤ w) : padDigits w n ≠ [] := by
  intro h
  have hlen := congrArg List.length h
  simp only [padDigits, List.length_append, List.length_replicate,
    List.length_nil] at hlen
  omega

theorem splitSlash_no_slash :
    ∀ xs : List Char, (∀ c ∈ xs, ¬c = '/') → splitSlash xs = [xs] := by
  intro xs
  induction xs with
  | nil => intro _; rfl
  | cons x rest ih =>
    intro h
    simp only [splitSlash]
    rw [if_neg (h x (by simp))]
    rw [ih (fun c hc => h c (by simp [hc]))]

theorem splitSlash_append :
    ∀ (xs rest : List Char), (∀ c ∈ xs, ¬c = '/') →
      splitSlash (xs ++ '/' :: rest) = xs :: splitSlash rest := by
  intro xs
  induction xs with
  | nil =>
    intro rest _
    simp [splitSlash]
  | cons x tl ih =>
    intro rest h
    simp only [List.cons_append, splitSlash, List.append_eq]
    rw [if_neg (h x (by simp))]
    rw [ih rest (fun c hc => h c (by simp [hc]))]

theorem foldl_zeros (k : Nat) :
    List.foldl (fun a c => 10 * a + digitVal c) 0 (List.replicate k '0') = 0 := by
  induction k with
  | zero => rfl
  | succ m ih =>
    rw [List.replicate_succ, List.foldl_cons]
    simpa using ih

theorem foldl_digitChars :
    ∀ l : List Nat, (∀ d ∈ l, d < 10) → ∀ a : Nat,
      List.foldl (fun x c => 10 * x + digitVal c) a
          (l.reverse.map Nat.digitChar) =
        a * 10 ^ l.length + Nat.ofDigits 10 l := by
  intro l
  induction l with
  | nil => intro _ a; simp
  | cons d ds ih =>
    intro h a
    simp only [List.reverse_cons, List.map_append, List.foldl_append,
      List.map_cons, List.map_nil, List.foldl_cons, List.foldl_nil]
    rw [ih (fun x hx => h x (by simp [hx])) a]
    rw [digitVal_digitChar d (h d (by simp))]
    rw [Nat.ofDigits_cons, List.length_cons, pow_succ]
    ring

theorem parseNatDigits_padDigits (w n : Nat) (hw : 1 ≤ w) :
    parseNatDigits (padDigits w n) = some n := by
  unfold parseNatDigits
  rw [if_pos ⟨padDigits_ne_nil w n hw,
    List.all_eq_true.mpr (padDigits_all_digit w n)⟩]
  unfold padDigits
  rw [digitsBE_eq]
  rw [List.foldl_append, foldl_zeros]
  rw [foldl_digitChars (Nat.digits 10 n)
    (fun d hd => Nat.digits_lt_base (by norm_num) hd) 0]
  rw [Nat.ofDigits_digits]
  simp

/-! ## Claim C5: the export date string round-trips -/

/-- C5: for every forecast record whose timestamp is a valid date in the
pandas `Timestamp` range (which all windowed forecast records are), the
`formattedDate` string the export builder produces — zero-padded
day/month/year — re-parsed with the same day-first convention, yields back
exactly the record's timestamp. -/
theorem export_date_roundtrip (r : ForecastRecord) (hv : r.ds.valid)
    (hb : inTimestampBounds r.ds) :
    parseDateDayFirst (exportRow r).dateText = some r.ds := by
  have hsplit : splitSlash (strftimeDMY r.ds).toList =
      [padDigits 2 r.ds.day, padDigits 2 r.ds.month, padDigits 4 r.ds.year] := by
    rw [show (strftimeDMY r.ds).toList =
      padDigits 2 r.ds.day ++ '/' ::
        (padDigits 2 r.ds.month ++ '/' :: padDigits 4 r.ds.year) from rfl]
    rw [splitSlash_append _ _ (padDigits_no_slash 2 r.ds.day)]
    rw [splitSlash_append _ _ (padDigits_no_slash 2 r.ds.month)]
    rw [splitSlash_no_slash _ (padDigits_no_slash 4 r.ds.year)]
  have hday : parseNatDigits (padDigits 2 r.ds.day) = some r.ds.day :=
    parseNatDigits_padDigits 2 _ (by omega)
  have hmonth : parseNatDigits (padDigits 2 r.ds.month) = some r.ds.month :=
    parseNatDigits_padDigits 2 _ (by omega)
  have hyear : parseNatDigits (padDigits 4 r.ds.year) = some r.ds.year :=
    parseNatDigits_padDigits 4 _ (by omega)
  show parseDateDayFirst (strftimeDMY r.ds) = some r.ds
  unfold parseDateDayFirst
  rw [hsplit]
  dsimp only
  rw [hday, hmonth, hyear]
  dsimp only
  rw [if_pos hv, if_pos hb]

/-- Witness for C5: the record at April 3, 2024 formats to `"03/04/2024"`
and parses back to April 3, 2024. -/
theorem export_date_roundtrip_witness :
    (exportRow ⟨⟨2024, 4, 3⟩, 1, 0, 2⟩).dateText = "03/04/2024" ∧
    parseDateDayFirst
      (exportRow (⟨⟨2024, 4, 3⟩, 1, 0, 2⟩ : ForecastRecord)).dateText =
      some ⟨2024, 4, 3⟩ :=
  ⟨by decide,
    export_date_roundtrip ⟨⟨2024, 4, 3⟩, 1, 0, 2⟩ (by decide) (by decide)⟩

/-! ## Claim C7: atomicity of the run's output -/

/-- A one-row upload: enough to load and pass the numeric check, too little
for Prophet's two-row minimum. -/
def c7_table : Table :=
  [("d", [Cell.str "01/01/2024"]), ("y", [Cell.num 5])]

/-- Counterexample to C7 as stated: the claim says a run either produces the
full preview/forecast/export sequence or no partial output.  On a one-row
table the success message and the data preview (lines 54-56) are emitted,
then `model.fit` raises and the handler appends the error — partial output
and an error coexist, and no forecast output follows. -/
theorem partial_output_counterexample :
    runPipeline c7_table "d" "y" =
      [Output.successMsg, Output.previewTable,
        Output.errorProcessing "Dataframe has less than 2 non-NaN rows."] ∧
    Output.successMsg ∈ runPipeline c7_table "d" "y" ∧
    Output.forecastTable ∉ runPipeline c7_table "d" "y" := by decide

/-! ## Claim C8: behaviour on empty and degenerate series -/

/-- A zero-row upload. -/
def c8_empty_table : Table :=
  [("d", ([] : List Cell)), ("y", ([] : List Cell))]

/-- A two-row series with constant target values (degenerate variance). -/
def c8_const_table : Table :=
  [("d", [Cell.str "01/01/2024", Cell.str "01/02/2024"]),
    ("y", [Cell.num 7, Cell.num 7])]

/-- Counterexample to C8 as stated: an empty canonical series does not fail
fast with an `InsufficientDataError` — it is stopped by the numeric-dtype
check (a zero-row column loads with dtype `object`), so the run's only
output is the not-numeric error and fitting is never reached; and a
degenerate-variance (constant `y`) series does not produce a `FitError` —
the run completes with the full output sequence (Prophet special-cases a
flat history under linear growth). -/
theorem insufficient_data_counterexample :
    runPipeline c8_empty_table "d" "y" = [Output.errorNotNumeric] ∧
    runPipeline c8_const_table "d" "y" =
      [Output.successMsg, Output.previewTable, Output.forecastTable,
        Output.downloadButton, Output.plotsShown] := by decide

/-! ## Claim C9: the date conversion mutates the loaded table -/

/-- A loaded table whose date column holds date strings. -/
def c9_table : Table :=
  [("d", [Cell.str "03/04/2024"]), ("y", [Cell.num 1])]

/-- The same table after line 45 ran: the date column now holds timestamps. -/
def c9_converted : Table :=
  [("d", [Cell.date ⟨2024, 4, 3⟩]), ("y", [Cell.num 1])]

/-- Counterexample to C9 as stated: the claim says validation leaves the
loaded table unchanged.  Line 45 (`df[date_col] = pd.to_datetime(...)`)
assigns into the loaded DataFrame itself: after validation the table differs
from the one `read_csv` produced (its date column now holds timestamps, not
the original strings). -/
theorem table_mutation_counterexample :
    convertDateCol c9_table "d" = Except.ok c9_converted ∧
    c9_converted ≠ c9_table := by decide

/-! ## Claim C10: selecting the same column for date and target -/

/-- A table on which both selections name column `a`. -/
def c10_table : Table :=
  [("a", [Cell.str "01/01/2024", Cell.str "02/01/2024"]),
    ("b", [Cell.num 1, Cell.num 2])]

/-- Counterexample to C10 as stated: the claim says that with coinciding
selections the pipeline date-converts the column and then applies the
numeric check to it.  In fact the rename dictionary `{date_col: "ds",
y_col: "y"}` collapses to `{col: "y"}`, so `sort_values("ds")` raises
`KeyError` and the run's only output is the handler's error: the numeric
check is never applied (no not-numeric error, no success message). -/
theorem coinciding_columns_counterexample :
    runPipeline c10_table "a" "a" =
      [Output.errorProcessing "KeyError: ds"] ∧
    Output.errorNotNumeric ∉ runPipeline c10_table "a" "a" ∧
    Output.successMsg ∉ runPipeline c10_table "a" "a" := by decide

/-- C10 amended: selecting the same column `c` for date and target is
accepted by validation — no selection error; the column is date-converted
(the hypothesis is exactly that line 45 succeeded) — but the rename
dictionary collapses to `{c: "y"}`, so the prepared frame has no `ds` column,
`sort_values("ds")` raises a `KeyError` that the top-level handler reports,
and the numeric check is never applied. -/
theorem coinciding_columns_keyerror (tbl : Table) (c : String) (df : Table)
    (h : convertDateCol tbl c = .ok df) :
    runPipeline tbl c c = [Output.errorProcessing "KeyError: ds"] := by
  obtain ⟨cells, hl, ht, hdf⟩ := convertDateCol_ok tbl c df h
  have hlook : df.lookup c =
      some (cells.map (fun cl => Cell.date ((cellToDate cl).getD ⟨0, 0, 0⟩))) := by
    rw [hdf]
    exact lookup_replace_self tbl c _ cells hl
  have hren : renameTarget c c c = "y" := by simp [renameTarget]
  have hproj : projectFrame df c c =
      .ok ⟨"y", "y",
        (cells.map (fun cl => Cell.date ((cellToDate cl).getD ⟨0, 0, 0⟩))).zip
          (cells.map (fun cl => Cell.date ((cellToDate cl).getD ⟨0, 0, 0⟩)))⟩ := by
    simp [projectFrame, hlook, hren]
  have hsort : sort_values_ds
      ⟨"y", "y",
        (cells.map (fun cl => Cell.date ((cellToDate cl).getD ⟨0, 0, 0⟩))).zip
          (cells.map (fun cl => Cell.date ((cellToDate cl).getD ⟨0, 0, 0⟩)))⟩ =
      .error "KeyError: ds" := rfl
  simp [runPipeline, h, hproj, hsort]

/-- Witness for C10 amended: a concrete one-column table, selected twice. -/
theorem coinciding_columns_keyerror_witness :
    runPipeline [("x", [Cell.str "01/01/2024"])] "x" "x" =
      [Output.errorProcessing "KeyError: ds"] :=
  coinciding_columns_keyerror [("x", [Cell.str "01/01/2024"])] "x"
    [("x", [Cell.date ⟨2024, 1, 1⟩])] (by decide)

/-- C7 amended: every run's output sequence has one of exactly four shapes —
the full success sequence, the numeric-check error alone, a processing error
alone, or the success message and preview FOLLOWED by a processing error.
Every failure is surfaced as a user-visible error message and the run (a
total function) never terminates the host; but in the fourth shape partial
output precedes the error, so full-output-or-nothing does not hold. -/
theorem run_outputs_shape (tbl : Table) (dateCol yCol : String) :
    runPipeline tbl dateCol yCol =
      [Output.successMsg, Output.previewTable, Output.forecastTable,
        Output.downloadButton, Output.plotsShown] ∨
    runPipeline tbl dateCol yCol = [Output.errorNotNumeric] ∨
    (∃ m, runPipeline tbl dateCol yCol = [Output.errorProcessing m]) ∨
    (∃ m, runPipeline tbl dateCol yCol =
      [Output.successMsg, Output.previewTable, Output.errorProcessing m]) := by
  unfold runPipeline
  cases hc : convertDateCol tbl dateCol with
  | error e =>
    simp only [hc]
    exact Or.inr (Or.inr (Or.inl ⟨e, rfl⟩))
  | ok df =>
    simp only [hc]
    cases hp : projectFrame df dateCol yCol with
    | error e =>
      simp only [hp]
      exact Or.inr (Or.inr (Or.inl ⟨e, rfl⟩))
    | ok f =>
      simp only [hp]
      cases hs : sort_values_ds f with
      | error e =>
        simp only [hs]
        exact Or.inr (Or.inr (Or.inl ⟨e, rfl⟩))
      | ok dfp =>
        simp only [hs]
        by_cases hy : checkY (dfp.rows.map (fun r => r.2)) = true
        · rw [if_pos hy]
          cases hf : prophetFit dfp.rows with
          | error e => exact Or.inr (Or.inr (Or.inr ⟨e, by simp [hf]⟩))
          | ok hist => exact Or.inl (by simp [hf])
        · rw [if_neg hy]
          exact Or.inr (Or.inl rfl)

/-- C8 amended: an empty canonical series never reaches fitting — it is
stopped earlier, by the numeric-dtype check (a zero-row column has dtype
`object`), surfaced as the not-numeric error message, not as an
insufficient-data error; and a series with fewer than two non-null rows
makes `Prophet.fit` itself raise its two-row minimum `ValueError`, which the
top-level handler reports.  (Degenerate variance causes no error at all; see
the counterexample.) -/
theorem insufficient_data_behaviour :
    (∀ (tbl : Table) (dateCol yCol : String) (df : Table),
      dateCol ≠ yCol →
      convertDateCol tbl dateCol = .ok df →
      tbl.lookup yCol = some [] →
      runPipeline tbl dateCol yCol = [Output.errorNotNumeric]) ∧
    (∀ rows : List (Cell × Cell),
      (rows.filter (fun r => !r.2.isNull)).length < 2 →
      prophetFit rows = .error "Dataframe has less than 2 non-NaN rows.") := by
  constructor
  · intro tbl dateCol yCol df hne h hy
    obtain ⟨cells, hl, ht, hdf⟩ := convertDateCol_ok tbl dateCol df h
    have hlook : df.lookup dateCol =
        some (cells.map (fun cl => Cell.date ((cellToDate cl).getD ⟨0, 0, 0⟩))) := by
      rw [hdf]
      exact lookup_replace_self tbl dateCol _ cells hl
    have hlooky : df.lookup yCol = some [] := by
      rw [hdf, lookup_replace_other tbl dateCol _ yCol hne.symm]
      exact hy
    have hproj : projectFrame df dateCol yCol = .ok ⟨"ds", "y", []⟩ := by
      simp [projectFrame, hlook, hlooky, renameTarget, hne, List.zip_nil_right]
    have hsort : sort_values_ds ⟨"ds", "y", []⟩ = .ok ⟨"ds", "y", []⟩ := rfl
    have hcheck : checkY ([] : List Cell) = false := by decide
    simp [runPipeline, h, hproj, hsort, hcheck]
  · intro rows hlt
    unfold prophetFit
    rw [if_pos hlt]

/-- Witness for C8 amended: a table with zero-row columns ends in the
not-numeric error; a one-row series fails Prophet's two-row minimum. -/
theorem insufficient_data_behaviour_witness :
    runPipeline [("dd", ([] : List Cell)), ("yy", ([] : List Cell))]
      "dd" "yy" = [Output.errorNotNumeric] ∧
    prophetFit [(Cell.date ⟨2024, 1, 1⟩, Cell.num 1)] =
      .error "Dataframe has less than 2 non-NaN rows." :=
  ⟨insufficient_data_behaviour.1
      [("dd", ([] : List Cell)), ("yy", ([] : List Cell))] "dd" "yy"
      [("dd", ([] : List Cell)), ("yy", ([] : List Cell))]
      (by decide) (by decide) (by decide),
    insufficient_data_behaviour.2 [(Cell.date ⟨2024, 1, 1⟩, Cell.num 1)]
      (by decide)⟩

/-! ## Claim C2: forecast coverage and length -/

theorem dateLt_trans {a b c : Date} (h1 : dateLt a b) (h2 : dateLt b c) :
    dateLt a c := by
  unfold dateLt at *; omega

theorem dateLe_lt_trans {a b c : Date} (h1 : dateLe a b) (h2 : dateLt b c) :
    dateLt a c := by
  unfold dateLe at h1; unfold dateLt at *; omega

theorem succMonthStart_day (d : Date) : (succMonthStart d).day = 1 := by
  unfold succMonthStart
  split <;> rfl

theorem lt_succMonthStart (d : Date) : dateLt d (succMonthStart d) := by
  unfold succMonthStart dateLt
  split <;> simp

theorem mem_uniqueFirstAux :
    ∀ (l seen : List Date) (a : Date),
      a ∈ uniqueFirstAux seen l ↔ (a ∈ l ∧ a ∉ seen) := by
  intro l
  induction l with
  | nil => intro seen a; simp [uniqueFirstAux]
  | cons x xs ih =>
    intro seen a
    by_cases hx : x ∈ seen
    · simp only [uniqueFirstAux]
      rw [if_pos hx, ih]
      constructor
      · rintro ⟨h1, h2⟩
        exact ⟨List.mem_cons_of_mem _ h1, h2⟩
      · rintro ⟨h1, h2⟩
        rcases List.mem_cons.mp h1 with rfl | hm
        · exact absurd hx h2
        · exact ⟨hm, h2⟩
    · simp only [uniqueFirstAux]
      rw [if_neg hx, List.mem_cons, ih]
      constructor
      · rintro (rfl | ⟨h1, h2⟩)
        · exact ⟨List.mem_cons_self _ _, hx⟩
        · have h2' : a ∉ seen := fun hs => h2 (List.mem_cons_of_mem _ hs)
          exact ⟨List.mem_cons_of_mem _ h1, h2'⟩
      · rintro ⟨h1, h2⟩
        rcases List.mem_cons.mp h1 with rfl | hm
        · exact Or.inl rfl
        · by_cases hax : a = x
          · exact Or.inl hax
          · exact Or.inr ⟨hm, by simp [List.mem_cons, hax, h2]⟩

theorem mem_uniqueFirst (l : List Date) (a : Date) :
    a ∈ uniqueFirst l ↔ a ∈ l := by
  unfold uniqueFirst
  rw [mem_uniqueFirstAux]
  simp

theorem length_uniqueFirstAux_le :
    ∀ (l seen : List Date), (uniqueFirstAux seen l).length ≤ l.length := by
  intro l
  induction l with
  | nil => intro seen; simp [uniqueFirstAux]
  | cons x xs ih =>
    intro seen
    by_cases hx : x ∈ seen
    · simp only [uniqueFirstAux]
      rw [if_pos hx]
      have := ih seen
      simp only [List.length_cons]
      omega
    · simp only [uniqueFirstAux]
      rw [if_neg hx]
      simp only [List.length_cons]
      have := ih (x :: seen)
      omega

theorem uniqueFirstAux_eq_self :
    ∀ (l seen : List Date), l.Nodup → (∀ a ∈ l, a ∉ seen) →
      uniqueFirstAux seen l = l := by
  intro l
  induction l with
  | nil => intro seen _ _; rfl
  | cons x xs ih =>
    intro seen hnd hs
    have hx : x ∉ seen := hs x (List.mem_cons_self _ _)
    simp only [uniqueFirstAux]
    rw [if_neg hx]
    congr 1
    apply ih (x :: seen) (List.nodup_cons.mp hnd).2
    intro a ha
    simp only [List.mem_cons, not_or]
    exact ⟨fun he => (List.nodup_cons.mp hnd).1 (he ▸ ha),
      hs a (List.mem_cons_of_mem _ ha)⟩

theorem uniqueFirst_eq_self (l : List Date) (h : l.Nodup) : uniqueFirst l = l :=
  uniqueFirstAux_eq_self l [] h (by simp)

theorem length_insertDate (d : Date) :
    ∀ l : List Date, (insertDate d l).length = l.length + 1
  | [] => rfl
  | x :: xs => by
    unfold insertDate
    by_cases h : dateLe d x
    · rw [if_pos h]
      rfl
    · rw [if_neg h]
      simp only [List.length_cons, length_insertDate d xs]

theorem length_sortDates (l : List Date) : (sortDates l).length = l.length := by
  induction l with
  | nil => rfl
  | cons x xs ih =>
    simp only [sortDates, List.foldr_cons] at *
    rw [length_insertDate, ih, List.length_cons]

theorem mem_insertDate (a d : Date) :
    ∀ l : List Date, a ∈ insertDate d l ↔ a = d ∨ a ∈ l
  | [] => by simp [insertDate]
  | x :: xs => by
    unfold insertDate
    by_cases h : dateLe d x
    · rw [if_pos h]
      simp [List.mem_cons]
    · rw [if_neg h]
      rw [List.mem_cons, mem_insertDate a d xs]
      simp [List.mem_cons]
      tauto

theorem mem_sortDates (a : Date) (l : List Date) : a ∈ sortDates l ↔ a ∈ l := by
  induction l with
  | nil => simp [sortDates]
  | cons x xs ih =>
    simp only [sortDates, List.foldr_cons] at *
    rw [mem_insertDate, ih, List.mem_cons]

/-- The three future dates `make_future_dataframe` appends: for any last
observed date, `date_range(start=last, periods=4, freq='MS')` filtered to
dates strictly after `last` and truncated to 3 yields exactly the next three
month starts after `last`. -/
theorem future_dates_eq (last : Date) :
    ((date_range_MS last 4).filter (fun d => decide (dateLt last d))).take 3 =
      [succMonthStart last, succMonthStart (succMonthStart last),
        succMonthStart (succMonthStart (succMonthStart last))] := by
  have hlt1 : dateLt last (succMonthStart last) := lt_succMonthStart last
  have hlt2 : dateLt last (succMonthStart (succMonthStart last)) :=
    dateLt_trans hlt1 (lt_succMonthStart _)
  have hlt3 :
      dateLt last (succMonthStart (succMonthStart (succMonthStart last))) :=
    dateLt_trans hlt2 (lt_succMonthStart _)
  by_cases hd : last.day = 1
  · have hm : monthStartOnOrAfter last = ⟨last.year, last.month, 1⟩ := by
      unfold monthStartOnOrAfter
      rw [if_pos hd]
    have hsucc :
        succMonthStart (⟨last.year, last.month, 1⟩ : Date) =
          succMonthStart last := rfl
    have hexp : msSeq (⟨last.year, last.month, 1⟩ : Date) 4 =
        [⟨last.year, last.month, 1⟩, succMonthStart last,
          succMonthStart (succMonthStart last),
          succMonthStart (succMonthStart (succMonthStart last))] := by
      simp [msSeq, hsucc]
    have hnot : ¬ dateLt last ⟨last.year, last.month, 1⟩ := by
      unfold dateLt
      simp only
      omega
    unfold date_range_MS
    rw [hm, hexp]
    simp [List.filter_cons, decide_eq_true_eq, hnot, hlt1, hlt2, hlt3]
  · have hm : monthStartOnOrAfter last = succMonthStart last := by
      unfold monthStartOnOrAfter
      rw [if_neg hd]
    have hexp : msSeq (succMonthStart last) 4 =
        [succMonthStart last, succMonthStart (succMonthStart last),
          succMonthStart (succMonthStart (succMonthStart last)),
          succMonthStart (succMonthStart (succMonthStart (succMonthStart last)))] := by
      simp [msSeq]
    unfold date_range_MS
    rw [hm, hexp]
    have hlt4 : dateLt last
        (succMonthStart (succMonthStart (succMonthStart (succMonthStart last)))) :=
      dateLt_trans hlt3 (lt_succMonthStart _)
    simp [List.filter_cons, decide_eq_true_eq, hlt1, hlt2, hlt3, hlt4]

/-- C2 amended: for every canonical series Prophet accepts (at least two
non-null rows), the forecast's timestamps are the DISTINCT historical
timestamps in ascending order — every input timestamp is covered, but
duplicates are collapsed — followed by exactly 3 consecutive month starts
strictly beyond every historical timestamp.  The forecast length is the
number of distinct timestamps plus 3 (which equals input length + 3 exactly
when the input timestamps are distinct, and can be smaller than the input
length otherwise). -/
theorem forecast_covers_distinct_history (rows : List (Cell × Cell))
    (hist : List Date) (hfit : prophetFit rows = .ok hist) :
    (∀ d ∈ rows.map (fun r => cellDate r.1), d ∈ make_future_dataframe hist) ∧
    (make_future_dataframe hist).length = hist.length + 3 ∧
    hist.length ≤ rows.length ∧
    ((rows.map (fun r => cellDate r.1)).Nodup → hist.length = rows.length) ∧
    (∃ m1, make_future_dataframe hist =
        hist ++ [m1, succMonthStart m1, succMonthStart (succMonthStart m1)] ∧
      m1.day = 1 ∧ (succMonthStart m1).day = 1 ∧
      (succMonthStart (succMonthStart m1)).day = 1 ∧
      ∀ d ∈ hist, dateLt d m1 ∧ dateLt d (succMonthStart m1) ∧
        dateLt d (succMonthStart (succMonthStart m1))) := by
  have h2 : ¬ (rows.filter (fun r => !r.2.isNull)).length < 2 := by
    intro hc
    unfold prophetFit at hfit
    rw [if_pos hc] at hfit
    cases hfit
  have hsh : sortDates (uniqueFirst (rows.map (fun r => cellDate r.1))) =
      hist := by
    unfold prophetFit at hfit
    rw [if_neg h2] at hfit
    simpa using hfit
  have hne : rows ≠ [] := by
    rintro rfl
    simp at h2
  have hds : rows.map (fun r => cellDate r.1) ≠ [] := by
    simpa using hne
  have hmemhist : ∀ d ∈ rows.map (fun r => cellDate r.1), d ∈ hist := by
    intro d hd
    rw [← hsh, mem_sortDates, mem_uniqueFirst]
    exact hd
  have hlen_le : hist.length ≤ rows.length := by
    rw [← hsh, length_sortDates]
    calc (uniqueFirst (rows.map (fun r => cellDate r.1))).length
        ≤ (rows.map (fun r => cellDate r.1)).length :=
          length_uniqueFirstAux_le _ _
      _ = rows.length := List.length_map _ _
  have hlen_eq : (rows.map (fun r => cellDate r.1)).Nodup →
      hist.length = rows.length := by
    intro hnd
    rw [← hsh, uniqueFirst_eq_self _ hnd, length_sortDates, List.length_map]
  obtain ⟨h, t, rfl⟩ : ∃ h t, hist = h :: t := by
    cases hist with
    | nil =>
      obtain ⟨d, hd⟩ := List.exists_mem_of_ne_nil _ hds
      exact absurd (hmemhist d hd) (by simp)
    | cons a b => exact ⟨a, b, rfl⟩
  have hmfd : make_future_dataframe (h :: t) =
      (h :: t) ++ [succMonthStart (dsMax h t),
        succMonthStart (succMonthStart (dsMax h t)),
        succMonthStart (succMonthStart (succMonthStart (dsMax h t)))] := by
    simp only [make_future_dataframe]
    rw [future_dates_eq]
  refine ⟨?_, ?_, hlen_le, hlen_eq, succMonthStart (dsMax h t), hmfd,
    succMonthStart_day _, succMonthStart_day _, succMonthStart_day _, ?_⟩
  · intro d hd
    rw [hmfd]
    exact List.mem_append_left _ (hmemhist d hd)
  · rw [hmfd]
    simp
  · intro d hd
    have hle : dateLe d (dsMax h t) := dsMax_isMax h t d hd
    have l1 : dateLt d (succMonthStart (dsMax h t)) :=
      dateLe_lt_trans hle (lt_succMonthStart _)
    exact ⟨l1, dateLt_trans l1 (lt_succMonthStart _),
      dateLt_trans (dateLt_trans l1 (lt_succMonthStart _))
        (lt_succMonthStart _)⟩

/-- Witness for C2 amended: a two-row series with distinct timestamps
forecasts 2 + 3 rows and covers its history. -/
theorem forecast_covers_distinct_history_witness :
    (make_future_dataframe [⟨2024, 1, 1⟩, ⟨2024, 2, 1⟩]).length = 2 + 3 ∧
    (⟨2024, 1, 1⟩ : Date) ∈
      make_future_dataframe [⟨2024, 1, 1⟩, ⟨2024, 2, 1⟩] := by
  have h := forecast_covers_distinct_history
    [(Cell.date ⟨2024, 1, 1⟩, Cell.num 1), (Cell.date ⟨2024, 2, 1⟩, Cell.num 2)]
    [⟨2024, 1, 1⟩, ⟨2024, 2, 1⟩] (by decide)
  exact ⟨h.2.1, h.1 ⟨2024, 1, 1⟩ (by decide)⟩

/-- A canonical series of three observations with a duplicated timestamp. -/
def c2_rows : List (Cell × Cell) :=
  [(Cell.date ⟨2024, 1, 1⟩, Cell.num 1),
    (Cell.date ⟨2024, 1, 1⟩, Cell.num 2),
    (Cell.date ⟨2024, 2, 1⟩, Cell.num 3)]

/-- A canonical series of six observations, five sharing one timestamp. -/
def c2_rows6 : List (Cell × Cell) :=
  [(Cell.date ⟨2024, 1, 1⟩, Cell.num 1),
    (Cell.date ⟨2024, 1, 1⟩, Cell.num 2),
    (Cell.date ⟨2024, 1, 1⟩, Cell.num 3),
    (Cell.date ⟨2024, 1, 1⟩, Cell.num 4),
    (Cell.date ⟨2024, 1, 1⟩, Cell.num 5),
    (Cell.date ⟨2024, 2, 1⟩, Cell.num 6)]

/-- Counterexample to C2 as stated: canonical series admit duplicate
timestamps (the pipeline never rejects them), and Prophet's
`make_future_dataframe` rebuilds the historical span from the DISTINCT input
timestamps (`df['ds'].unique()`).  On a three-row series with a duplicated
timestamp the model fits (3 ≥ 2 rows) but the forecast has 2 + 3 = 5 rows,
not 3 + 3 = 6; and on a six-row series with five equal timestamps the
forecast has 5 rows, fewer than the 6 input rows, refuting "length at least
the input length" as well. -/
theorem forecast_length_counterexample :
    prophetFit c2_rows = Except.ok [⟨2024, 1, 1⟩, ⟨2024, 2, 1⟩] ∧
    (make_future_dataframe [⟨2024, 1, 1⟩, ⟨2024, 2, 1⟩]).length ≠
      c2_rows.length + 3 ∧
    prophetFit c2_rows6 = Except.ok [⟨2024, 1, 1⟩, ⟨2024, 2, 1⟩] ∧
    (make_future_dataframe [⟨2024, 1, 1⟩, ⟨2024, 2, 1⟩]).length <
      c2_rows6.length := by decide

end ForecastApp
